import Mathlib

/-!
Verification of the Directory-Backup mirroring core (src/src/watcher.py and
src/src/main.py) against its natural-language specification.

The embedding is shallow:

* A path inside a filesystem tree is a list of components (`FsPath`);
  the parent directory of a path is `List.dropLast`; the filesystem root is
  the empty list (its parent is itself, exactly as `Path("/").joinpath("..")
  .resolve()` is again `Path("/")`).
* A filesystem (one side of the mirror) is an association list from paths to
  nodes (`FS`); a node is a directory or a file carrying its content and its
  modification time (the metadata preserved by `shutil.copy2`).
* The string-level path mapper `Handler.__in_destination` (a Python
  `str.replace`) is embedded separately over `List Char`, because its
  behaviour is a property of raw strings, not of component lists.
* Each event handler (`on_created`, `on_modified`, `on_moved`, `on_deleted`)
  is a function from the source tree, the destination tree and the event to
  the new destination tree together with a trace of the externally visible
  actions it performed (directory creation, copy attempts, removals, pruner
  invocations, warning logs).  The generic `except Exception` wrapper of each
  handler is embedded by making every error path return normally while
  recording a `warn` action; `FileNotFoundError` raised by `Path.iterdir` in
  the pruner and by `shutil.copy2` in `on_moved` is swallowed exactly where
  the Python code swallows it.
* Recursion of the upward pruner is embedded with explicit fuel; the
  development proves (claim C5) that `depth + 2` units of fuel always
  suffice, which is the termination statement for the Python recursion.

Modelling notes (states not exercised by any claim):

* `os.makedirs` is modelled as total; a path component occupied by a file
  would make the real call raise (handled by the generic per-event catch).
* `shutil.copy2` toward a destination path occupied by a directory would
  copy into that directory in Python; the model treats the destination path
  as a plain file slot.  A *source* path occupied by a directory is modelled
  as the distinct error `CopyErr.notAFile`, because `on_moved` must not
  swallow it (its inner handler catches only `FileNotFoundError`).
* `Path.unlink` on a directory raises; the model routes that to the generic
  per-event catch (a `warn` action) and aborts the rest of the handler, as
  the Python code does.
* `Path.iterdir` on a file raises `NotADirectoryError`, which escapes
  `__recursively_clean_dirs_upwards` (its handler catches only
  `FileNotFoundError`); the pruner therefore returns the state reached so
  far together with an error flag that the calling handler turns into a
  `warn` action.
-/

/-! ### Paths and filesystem trees -/

/-- A filesystem path, as the list of its components below the root.
The filesystem root is `[]`; `p.dropLast` is `p`'s parent directory. -/
abbrev FsPath := List String

/-- A node of a filesystem tree: a directory, or a file with its content and
its modification time (the metadata `shutil.copy2` preserves). -/
inductive Node where
  | dir : Node
  | file (content : String) (mtime : Nat) : Node
deriving DecidableEq

/-- A filesystem tree: an association list from paths to nodes. -/
abbrev FS := List (FsPath × Node)

/-- Does a path exist in the tree?  Models `Path.exists`. -/
def FS.pathExists (fs : FS) (p : FsPath) : Bool :=
  fs.any fun e => decide (e.1 = p)

/-- The node stored at a path, if any. -/
def FS.lookup (fs : FS) (p : FsPath) : Option Node :=
  (fs.find? fun e => decide (e.1 = p)).map Prod.snd

/-- Is the node at `p` a file? -/
def FS.isFileAt (fs : FS) (p : FsPath) : Bool :=
  match fs.lookup p with
  | some (Node.file _ _) => true
  | _ => false

/-- Does the directory `p` contain at least one entry?  Models the test
`[x for x in path.iterdir()]` being non-empty. -/
def FS.hasChild (fs : FS) (p : FsPath) : Bool :=
  fs.any fun e => decide (e.1.dropLast = p ∧ e.1 ≠ p)

/-- Remove the entry at `p` and everything below it.
Models `shutil.rmtree` (the pruner only ever applies it to an empty
directory, where it removes exactly that directory). -/
def FS.rmtree (fs : FS) (p : FsPath) : FS :=
  fs.filter fun e => !(p.isPrefixOf e.1)

/-- Remove the file entry at `p`.  Models `Path.unlink`. -/
def FS.unlink (fs : FS) (p : FsPath) : FS :=
  fs.filter fun e => !decide (e.1 = p)

/-- Create every missing ancestor directory of (and including) `q`.
Models `os.makedirs(q, exist_ok=True)`.  The filesystem root `[]` always
exists and is never an entry. -/
def FS.mkdirs (fs : FS) (q : FsPath) : FS :=
  fs ++ ((q.inits.filter fun x => !decide (x = []) && !(fs.pathExists x)).map
    fun x => (x, Node.dir))

/-- Outcome of `shutil.copy2` when the source is unusable. -/
inductive CopyErr where
  /-- `FileNotFoundError`: the source path has vanished. -/
  | notFound
  /-- `IsADirectoryError`: the source path names a directory.  Distinct from
  `notFound` because `on_moved` swallows only `FileNotFoundError`. -/
  | notAFile
deriving DecidableEq

/-- Copy the file at `s` in the source tree to `d` in the destination tree,
content and metadata included, overwriting any file already at `d`.
Models `shutil.copy2(s, d)`. -/
def copy2 (srcFs dstFs : FS) (s d : FsPath) : Except CopyErr FS :=
  match srcFs.lookup s with
  | some (Node.file c m) =>
      .ok ((dstFs.filter fun e => !decide (e.1 = d)) ++ [(d, Node.file c m)])
  | some Node.dir => .error .notAFile
  | none => .error .notFound

/-! ### The string-level path mapper (`Handler.__in_destination`)

`__in_destination` maps a path by
`str(path).replace(str(self.source), str(self.dest))`:
a global left-to-right replacement of *every* occurrence of the source-root
string, not only of the leading prefix.  `replaceAllFuel` embeds Python's
`str.replace` over `List Char`; the fuel is the length of the haystack and
is always sufficient (each step consumes at least one character).  The
needle (the source root string) is never empty in the program, so the
`needle = []` branch (where Python would interleave the replacement between
all characters) is irrelevant and the embedding leaves such a haystack
unchanged. -/

/-- One pass of Python's `str.replace` with `fuel` bounding the recursion
depth; `fuel = hay.length` always suffices. -/
def replaceAllFuel (needle repl : List Char) : Nat → List Char → List Char
  | 0, l => l
  | _ + 1, [] => []
  | n + 1, c :: rest =>
      if !needle.isEmpty && needle.isPrefixOf (c :: rest) then
        repl ++ replaceAllFuel needle repl n ((c :: rest).drop needle.length)
      else
        c :: replaceAllFuel needle repl n rest

/-- Python's `str.replace needle repl`: replace every non-overlapping
occurrence of `needle`, scanning left to right. -/
def replaceAll (needle repl l : List Char) : List Char :=
  replaceAllFuel needle repl l.length l

/-- `Handler.__in_destination`, at string level: the source-root string is
replaced by the destination-root string everywhere in the path string
(`Path(...).absolute()` is the identity on the already absolute result). -/
def in_destination (source dest p : List Char) : List Char :=
  replaceAll source dest p

/-- Does `needle` occur (as a contiguous run) anywhere in `l`? -/
def occursIn (needle : List Char) : List Char → Bool
  | [] => needle.isEmpty
  | c :: rest => needle.isPrefixOf (c :: rest) || occursIn needle rest

/-! ### The upward directory pruner
(`Handler.__recursively_clean_dirs_upwards`)

The Boolean in the result records whether `NotADirectoryError` escaped
(`path.iterdir()` applied to a file); the surrounding handler catches it and
logs a warning.  `FileNotFoundError` (listing a vanished directory) is
caught inside the pruner itself and stops it silently, exactly as the
`except FileNotFoundError: return` of the Python code. -/

/-- The pruner's recursion with explicit fuel.  `dest` is `self.dest`, the
destination root at which the ascent stops. -/
def cleanUpFuel (dest : FsPath) : Nat → FS → FsPath → Option (FS × Bool)
  | 0, _, _ => none
  | n + 1, fs, p =>
      if p = dest then some (fs, false)
      else if fs.pathExists p then
        if fs.isFileAt p then some (fs, true)
        else if fs.hasChild p then some (fs, false)
        else cleanUpFuel dest n (fs.rmtree p) p.dropLast
      else some (fs, false)

/-- `Handler.__recursively_clean_dirs_upwards fs p dest`: starting at
directory `p`, delete empty directories upward until the destination root
`dest`, a non-empty directory, or a vanished directory stops the ascent.
`p.length + 2` units of fuel always suffice (claim C5). -/
def recursively_clean_dirs_upwards (fs : FS) (p dest : FsPath) : FS × Bool :=
  (cleanUpFuel dest (p.length + 2) fs p).getD (fs, false)

/-! ### Events, actions and the handler configuration -/

/-- One filesystem-change notification, as delivered by watchdog.  The raw
string paths (matched by the ignore filter) and their component forms (used
by the filesystem operations) are carried side by side; `dest_raw` and
`dest_path` are meaningful only for Moved events. -/
structure Event where
  is_directory : Bool
  src_raw : String
  src_path : FsPath
  dest_raw : String
  dest_path : FsPath

/-- An externally visible step performed by a handler, in order. -/
inductive Act where
  /-- `os.makedirs(p, exist_ok=True)`. -/
  | makedirs (p : FsPath)
  /-- A `shutil.copy2` attempt from `src` to `dst`; `ok` is false when the
  source had vanished (`FileNotFoundError`). -/
  | copy (src dst : FsPath) (ok : Bool)
  /-- `Path.unlink` of an existing destination file. -/
  | unlink (p : FsPath)
  /-- Invocation of `__recursively_clean_dirs_upwards` starting at `p`. -/
  | prune (p : FsPath)
  /-- `logger.warn` from the named handler's generic `except` block. -/
  | warn (handler : String)
deriving DecidableEq

/-- The per-`Handler` state: the ignore pattern, the regex engine
(`re.search`, abstract), the path mapper `__in_destination` at component
level, and `self.dest` (the destination root, the pruner's boundary). -/
structure HandlerCfg where
  ignore_pattern : String
  re_search : String → String → Bool
  in_dest : FsPath → FsPath
  dest : FsPath

/-- The guard `if self.ignore_pattern and re.search(self.ignore_pattern,
raw)`: true iff the pattern is non-empty (Python truthiness of a string)
and the regex search finds a match anywhere in `raw`. -/
def ignores (cfg : HandlerCfg) (raw : String) : Bool :=
  decide (cfg.ignore_pattern ≠ "") && cfg.re_search cfg.ignore_pattern raw

/-- `re.search` for a pattern without regex metacharacters: true iff the
pattern occurs as a contiguous substring anywhere in `s` (a search, not a
full match).  Used to instantiate the abstract `re_search` field. -/
def re_search_lit (pattern s : String) : Bool :=
  occursIn pattern.toList s.toList

/-! ### The event handlers (`Handler.on_*`)

Each handler returns the new destination tree and the trace of its actions.
`srcFs` is the source tree as found at action time, so a path missing from
`srcFs` is exactly a source file that vanished between notification and
action. -/

/-- `Handler.on_created`.  Vanished source: `shutil.copy2` raises
`FileNotFoundError`, which is caught by the generic `except Exception` and
logged as a warning. -/
def on_created (cfg : HandlerCfg) (srcFs dstFs : FS) (e : Event) :
    FS × List Act :=
  if e.is_directory then (dstFs, [])
  else if ignores cfg e.src_raw then (dstFs, [])
  else
    let d := cfg.in_dest e.src_path
    let f1 := dstFs.mkdirs d.dropLast
    match copy2 srcFs f1 e.src_path d with
    | .ok f2 => (f2, [.makedirs d.dropLast, .copy e.src_path d true])
    | .error _ =>
        (f1, [.makedirs d.dropLast, .copy e.src_path d false,
              .warn "on_created"])

/-- `Handler.on_modified`.  If the mapped destination file exists it is
unlinked first, then the ancestors are ensured and the file re-copied; a
directory at the mapped path makes `Path.unlink` raise, which the generic
`except Exception` turns into a warning and the rest of the handler is
skipped. -/
def on_modified (cfg : HandlerCfg) (srcFs dstFs : FS) (e : Event) :
    FS × List Act :=
  if e.is_directory then (dstFs, [])
  else if ignores cfg e.src_raw then (dstFs, [])
  else
    let d := cfg.in_dest e.src_path
    if dstFs.pathExists d then
      if dstFs.isFileAt d then
        let f0 := dstFs.unlink d
        let f1 := f0.mkdirs d.dropLast
        match copy2 srcFs f1 e.src_path d with
        | .ok f2 =>
            (f2, [.unlink d, .makedirs d.dropLast, .copy e.src_path d true])
        | .error _ =>
            (f1, [.unlink d, .makedirs d.dropLast, .copy e.src_path d false,
                  .warn "on_modified"])
      else (dstFs, [.warn "on_modified"])
    else
      let f1 := dstFs.mkdirs d.dropLast
      match copy2 srcFs f1 e.src_path d with
      | .ok f2 => (f2, [.makedirs d.dropLast, .copy e.src_path d true])
      | .error _ =>
          (f1, [.makedirs d.dropLast, .copy e.src_path d false,
                .warn "on_modified"])

/-- The tail of `Handler.on_moved` after the tolerant copy: remove the old
mapped file if it exists, then prune upward from its parent.  `f2` is the
destination tree after `os.makedirs` and the copy attempt; `ok` records
whether the copy succeeded. -/
def moved_finish (cfg : HandlerCfg) (f2 : FS) (destP oldD newD : FsPath)
    (ok : Bool) : FS × List Act :=
  let head := [Act.makedirs newD.dropLast, Act.copy destP newD ok]
  if f2.pathExists oldD then
    if f2.isFileAt oldD then
      let f3 := f2.unlink oldD
      let pr := recursively_clean_dirs_upwards f3 oldD.dropLast cfg.dest
      (pr.1, head ++ [.unlink oldD, .prune oldD.dropLast] ++
        (if pr.2 then [.warn "on_moved"] else []))
    else (f2, head ++ [.warn "on_moved"])
  else
    let pr := recursively_clean_dirs_upwards f2 oldD.dropLast cfg.dest
    (pr.1, head ++ [.prune oldD.dropLast] ++
      (if pr.2 then [.warn "on_moved"] else []))

/-- `Handler.on_moved`.  The copy from the event's new location is wrapped
in `try ... except FileNotFoundError: pass`, so a vanished source is
tolerated silently and the handler proceeds to remove the old mapped file
and prune; any other copy failure escapes to the generic `except Exception`
and aborts the rest of the handler with a warning. -/
def on_moved (cfg : HandlerCfg) (srcFs dstFs : FS) (e : Event) :
    FS × List Act :=
  if e.is_directory then (dstFs, [])
  else if ignores cfg e.src_raw then (dstFs, [])
  else if ignores cfg e.dest_raw then (dstFs, [])
  else
    let oldD := cfg.in_dest e.src_path
    let newD := cfg.in_dest e.dest_path
    let f1 := dstFs.mkdirs newD.dropLast
    match copy2 srcFs f1 e.dest_path newD with
    | .ok f2 => moved_finish cfg f2 e.dest_path oldD newD true
    | .error .notFound => moved_finish cfg f1 e.dest_path oldD newD false
    | .error .notAFile =>
        (f1, [.makedirs newD.dropLast, .copy e.dest_path newD false,
              .warn "on_moved"])

/-- `Handler.on_deleted`: unlink the mapped destination file if it exists,
then prune upward from its parent. -/
def on_deleted (cfg : HandlerCfg) (_srcFs dstFs : FS) (e : Event) :
    FS × List Act :=
  if e.is_directory then (dstFs, [])
  else if ignores cfg e.src_raw then (dstFs, [])
  else
    let d := cfg.in_dest e.src_path
    if dstFs.pathExists d then
      if dstFs.isFileAt d then
        let f0 := dstFs.unlink d
        let pr := recursively_clean_dirs_upwards f0 d.dropLast cfg.dest
        (pr.1, [.unlink d, .prune d.dropLast] ++
          (if pr.2 then [.warn "on_deleted"] else []))
      else (dstFs, [.warn "on_deleted"])
    else
      let pr := recursively_clean_dirs_upwards dstFs d.dropLast cfg.dest
      (pr.1, [.prune d.dropLast] ++
        (if pr.2 then [.warn "on_deleted"] else []))

/-! ### Intermediate states of `on_moved`, for stating claim C2 -/

/-- The destination tree of a non-ignored Moved event after `os.makedirs`
and the tolerant copy (before the old mapped file is removed). -/
def movedMid (cfg : HandlerCfg) (srcFs dstFs : FS) (e : Event) : FS :=
  let newD := cfg.in_dest e.dest_path
  let f1 := dstFs.mkdirs newD.dropLast
  match copy2 srcFs f1 e.dest_path newD with
  | .ok f2 => f2
  | .error _ => f1

/-- The destination tree of a non-ignored Moved event just before the
pruner runs: `movedMid` with the old mapped file removed if it exists. -/
def movedAfterRemove (cfg : HandlerCfg) (srcFs dstFs : FS) (e : Event) : FS :=
  let mid := movedMid cfg srcFs dstFs e
  let oldD := cfg.in_dest e.src_path
  if mid.pathExists oldD then mid.unlink oldD else mid

/-- The Moved action as the specification words it (section 4.3, Moved row):
map `destPath` to `dstNew` and `sourcePath` to `dstOld`; ensure the
ancestors of `dstNew` exist; copy content and metadata from the event's new
location into `dstNew`, tolerating a vanished source; if `dstOld` exists,
remove it; then invoke the pruner starting at `dstOld`'s parent.  This
definition follows the specification text; claim C2 proves the handler
refines it. -/
def movedSpec (cfg : HandlerCfg) (srcFs dstFs : FS) (e : Event) :
    FS × List Act :=
  let dstNew := cfg.in_dest e.dest_path
  let dstOld := cfg.in_dest e.src_path
  let f1 := dstFs.mkdirs dstNew.dropLast
  let copied := copy2 srcFs f1 e.dest_path dstNew
  let f2 := match copied with | .ok f => f | .error _ => f1
  let ok := match copied with | .ok _ => true | .error _ => false
  let f3 := if f2.pathExists dstOld then f2.unlink dstOld else f2
  let tr := if f2.pathExists dstOld then [Act.unlink dstOld] else []
  ((recursively_clean_dirs_upwards f3 dstOld.dropLast cfg.dest).1,
   [Act.makedirs dstNew.dropLast, Act.copy e.dest_path dstNew ok] ++
     tr ++ [Act.prune dstOld.dropLast])

/-! ### The watcher lifecycle (`Watcher.start` / `Watcher.stop`)

`Watcher` owns a watchdog `Observer`, which is a `threading.Thread`.  The
observer is embedded as a small state machine following the documented
semantics of watchdog's `BaseObserver` and of `threading.Thread`:

* `schedule` registers the handler (no thread interaction);
* `setDaemon True` marks the thread daemonic;
* `Thread.start` moves a never-started thread to running and returns
  immediately (the observer loop runs in the background);
* `BaseObserver.stop` sets the observer's stopped event (safe in every
  phase);
* `Thread.join` raises `RuntimeError` when the thread was never started,
  returns once a running thread has observed the stop request, and returns
  immediately on a finished thread. -/

/-- Lifecycle phase of the observer thread. -/
inductive ThreadPhase where
  | unstarted
  | running
  | finished
deriving DecidableEq

/-- State of the watchdog observer (a `threading.Thread`). -/
structure ObserverState where
  scheduled : Bool
  daemon : Bool
  phase : ThreadPhase
  stopRequested : Bool
deriving DecidableEq

/-- `Observer.schedule(handler, source, recursive=True, event_filter=...)`. -/
def ObserverState.schedule (s : ObserverState) : ObserverState :=
  { s with scheduled := true }

/-- `Thread.setDaemon`. -/
def ObserverState.setDaemon (s : ObserverState) (b : Bool) : ObserverState :=
  { s with daemon := b }

/-- `Thread.start`: spawn the background thread and return at once. -/
def ObserverState.startThread (s : ObserverState) :
    Except String ObserverState :=
  match s.phase with
  | .unstarted => .ok { s with phase := .running }
  | _ => .error "RuntimeError: threads can only be started once"

/-- `BaseObserver.stop`: set the stopped event (never faults). -/
def ObserverState.stopSignal (s : ObserverState) : ObserverState :=
  { s with stopRequested := true }

/-- `Thread.join`.  Joining a never-started thread raises `RuntimeError`;
joining a running thread returns once it has observed the stop request
(`Watcher.stop` always signals first, so the still-running case without a
stop request — where `join` would block forever — is marked as such);
joining a finished thread returns immediately. -/
def ObserverState.join (s : ObserverState) : Except String ObserverState :=
  match s.phase with
  | .unstarted => .error "RuntimeError: cannot join thread before it is started"
  | .running =>
      if s.stopRequested then .ok { s with phase := .finished }
      else .error "join blocks until the thread stops"
  | .finished => .ok s

/-- The `Watcher`'s mutable state: its observer. -/
structure Watcher where
  observer : ObserverState
deriving DecidableEq

/-- `Watcher.start`: schedule the handler, mark the observer daemonic,
start the observer thread, log, and return.  There is no wait of any kind
after `observer.start()`. -/
def Watcher.start (w : Watcher) : Except String Watcher :=
  let s1 := w.observer.schedule
  let s2 := s1.setDaemon true
  (s2.startThread).map fun s3 => ⟨s3⟩

/-- `Watcher.stop`: `observer.stop()` then `observer.join()`. -/
def Watcher.stop (w : Watcher) : Except String Watcher :=
  let s1 := w.observer.stopSignal
  (s1.join).map fun s2 => ⟨s2⟩

/-- The termination measure of the pruner's recursion: the depth of the
current directory, plus one while it still exists. -/
def pruneMeasure (fs : FS) (p : FsPath) : Nat :=
  p.length + (if fs.pathExists p then 1 else 0)

/-! ### Sample configuration, trees and events for the concrete witnesses -/

/-- Sample configuration: no ignore pattern, literal-substring search,
source root `src` mapped to destination root `dst`. -/
def sampleCfg : HandlerCfg :=
  ⟨"", re_search_lit, fun p => ["dst"] ++ p.drop 1, ["dst"]⟩

/-- Sample configuration with the ignore pattern `.tmp`. -/
def sampleCfgTmp : HandlerCfg :=
  ⟨".tmp", re_search_lit, fun p => ["dst"] ++ p.drop 1, ["dst"]⟩

/-- A file-creation style event on `src/proj/x.txt`. -/
def evFile : Event :=
  ⟨false, "/src/proj/x.txt", ["src", "proj", "x.txt"], "", []⟩

/-- A directory event on `src/proj`. -/
def evDir : Event :=
  ⟨true, "/src/proj", ["src", "proj"], "/src/proj2", ["src", "proj2"]⟩

/-- A move of `src/a/b.txt` to `src/c/d.txt`. -/
def evMove : Event :=
  ⟨false, "/src/a/b.txt", ["src", "a", "b.txt"],
   "/src/c/d.txt", ["src", "c", "d.txt"]⟩

/-- A sample source tree containing `src/c/d.txt`. -/
def srcTree : FS :=
  [(["src"], Node.dir), (["src", "c"], Node.dir),
   (["src", "c", "d.txt"], Node.file "hi" 3)]

/-- A sample destination tree mirroring `src/a/b.txt`. -/
def dstTree : FS :=
  [(["dst"], Node.dir), (["dst", "a"], Node.dir),
   (["dst", "a", "b.txt"], Node.file "hi" 3)]

/-- A file-modification style event on `src/a/b.txt`. -/
def evModFile : Event :=
  ⟨false, "/src/a/b.txt", ["src", "a", "b.txt"], "", []⟩

/-! ### Lemmas about the string-level mapper -/

theorem replaceAllFuel_irrel (needle repl : List Char) :
    ∀ n m l, l.length ≤ n → l.length ≤ m →
      replaceAllFuel needle repl n l = replaceAllFuel needle repl m l := by
  intro n
  induction n with
  | zero =>
      intro m l hn _
      have hl : l = [] := List.eq_nil_of_length_eq_zero (Nat.le_zero.mp hn)
      subst hl
      cases m <;> rfl
  | succ n ih =>
      intro m l hn hm
      cases l with
      | nil => cases m <;> rfl
      | cons c rest =>
          cases m with
          | zero => simp at hm
          | succ m =>
              simp only [replaceAllFuel]
              by_cases hcond :
                  (!needle.isEmpty && needle.isPrefixOf (c :: rest)) = true
              · rw [if_pos hcond, if_pos hcond]
                have hnex : needle ≠ [] := by
                  rcases Bool.and_eq_true_iff.mp hcond with ⟨h1, _⟩
                  cases needle with
                  | nil => simp at h1
                  | cons a as => simp
                have hlen : 0 < needle.length := List.length_pos.mpr hnex
                have hd : ((c :: rest).drop needle.length).length ≤ n := by
                  rw [List.length_drop]
                  simp only [List.length_cons] at hn ⊢
                  omega
                have hd' : ((c :: rest).drop needle.length).length ≤ m := by
                  rw [List.length_drop]
                  simp only [List.length_cons] at hm ⊢
                  omega
                rw [ih m _ hd hd']
              · rw [if_neg hcond, if_neg hcond]
                have : rest.length ≤ n := by
                  simp only [List.length_cons] at hn; omega
                have h' : rest.length ≤ m := by
                  simp only [List.length_cons] at hm; omega
                rw [ih m rest this h']

/-- When the needle occurs as a leading run, one replacement step is taken
and scanning resumes after it. -/
theorem replaceAll_step_of_leading (needle repl p : List Char)
    (hne : needle ≠ []) (hpre : needle.isPrefixOf p = true) :
    replaceAll needle repl p =
      repl ++ replaceAll needle repl (p.drop needle.length) := by
  cases p with
  | nil =>
      exfalso
      have : needle <+: [] := List.isPrefixOf_iff_prefix.mp hpre
      exact hne (List.prefix_nil.mp this)
  | cons c rest =>
      have hempty : needle.isEmpty = false := by
        cases needle with
        | nil => exact absurd rfl hne
        | cons a as => rfl
      have hcond : (!needle.isEmpty && needle.isPrefixOf (c :: rest)) = true := by
        rw [hempty, hpre]; rfl
      show replaceAllFuel needle repl (rest.length + 1) (c :: rest) = _
      simp only [replaceAllFuel, if_pos hcond]
      congr 1
      have hlen : 0 < needle.length := List.length_pos.mpr hne
      exact replaceAllFuel_irrel needle repl rest.length
        ((c :: rest).drop needle.length).length _
        (by rw [List.length_drop]; simp only [List.length_cons]; omega)
        (Nat.le_refl _)

/-- If the needle occurs nowhere in the haystack, `str.replace` is the
identity. -/
theorem replaceAllFuel_id_of_no_occ (needle repl : List Char) :
    ∀ n l, occursIn needle l = false → replaceAllFuel needle repl n l = l := by
  intro n
  induction n with
  | zero => intro l _; rfl
  | succ n ih =>
      intro l hocc
      cases l with
      | nil => rfl
      | cons c rest =>
          simp only [occursIn, Bool.or_eq_false_iff] at hocc
          simp only [replaceAllFuel, hocc.1, Bool.and_false]
          rw [if_neg (by simp), ih rest hocc.2]

theorem replaceAll_id_of_no_occ (needle repl l : List Char)
    (h : occursIn needle l = false) : replaceAll needle repl l = l :=
  replaceAllFuel_id_of_no_occ needle repl l.length l h

/-- Each replacement trades one occurrence of the needle for one copy of
the replacement: for some number `k` of performed replacements, the output
length satisfies `|output| + k * |needle| = |input| + k * |repl|`. -/
theorem replaceAllFuel_length (needle repl : List Char) :
    ∀ n l, ∃ k, (replaceAllFuel needle repl n l).length + k * needle.length
      = l.length + k * repl.length := by
  intro n
  induction n with
  | zero => intro l; exact ⟨0, by simp [replaceAllFuel]⟩
  | succ n ih =>
      intro l
      cases l with
      | nil => exact ⟨0, by simp [replaceAllFuel]⟩
      | cons c rest =>
          by_cases hcond :
              (!needle.isEmpty && needle.isPrefixOf (c :: rest)) = true
          · obtain ⟨k, hk⟩ := ih ((c :: rest).drop needle.length)
            refine ⟨k + 1, ?_⟩
            rcases Bool.and_eq_true_iff.mp hcond with ⟨_, hpre⟩
            have hle : needle.length ≤ (c :: rest).length :=
              (List.isPrefixOf_iff_prefix.mp hpre).length_le
            have hdrop : ((c :: rest).drop needle.length).length
                = (c :: rest).length - needle.length := List.length_drop _ _
            rw [hdrop] at hk
            simp only [replaceAllFuel, if_pos hcond, List.length_append]
            have e1 : (k + 1) * needle.length
                = k * needle.length + needle.length := Nat.succ_mul k _
            have e2 : (k + 1) * repl.length
                = k * repl.length + repl.length := Nat.succ_mul k _
            omega
          · obtain ⟨k, hk⟩ := ih rest
            refine ⟨k, ?_⟩
            simp only [replaceAllFuel, if_neg hcond, List.length_cons]
            omega

/-- If the needle occurs in the haystack and the replacement differs from
the needle, `str.replace` changes the haystack. -/
theorem replaceAllFuel_ne_of_occ (needle repl : List Char)
    (hne : needle ≠ []) (hnr : repl ≠ needle) :
    ∀ n l, l.length ≤ n → occursIn needle l = true →
      replaceAllFuel needle repl n l ≠ l := by
  have hie : needle.isEmpty = false := by
    cases needle with
    | nil => exact absurd rfl hne
    | cons a as => rfl
  intro n
  induction n with
  | zero =>
      intro l hl hocc
      have hnil : l = [] := List.eq_nil_of_length_eq_zero (Nat.le_zero.mp hl)
      subst hnil
      simp [occursIn, hie] at hocc
  | succ n ih =>
      intro l hl hocc
      cases l with
      | nil => simp [occursIn, hie] at hocc
      | cons c rest =>
          by_cases hcond :
              (!needle.isEmpty && needle.isPrefixOf (c :: rest)) = true
          · rcases Bool.and_eq_true_iff.mp hcond with ⟨_, hpre⟩
            obtain ⟨u, hu⟩ := List.isPrefixOf_iff_prefix.mp hpre
            have ht : (c :: rest).drop needle.length = u := by
              rw [← hu]; exact List.drop_left needle u
            simp only [replaceAllFuel, if_pos hcond, ht]
            rw [← hu]
            intro heq
            have hlen1 : repl.length + (replaceAllFuel needle repl n u).length
                = needle.length + u.length := by
              have hcl := congrArg List.length heq
              simpa [List.length_append] using hcl
            obtain ⟨k, hk⟩ := replaceAllFuel_length needle repl n u
            have e1 : (k + 1) * needle.length
                = k * needle.length + needle.length := Nat.succ_mul k _
            have e2 : (k + 1) * repl.length
                = k * repl.length + repl.length := Nat.succ_mul k _
            have hNR : (k + 1) * repl.length = (k + 1) * needle.length := by
              omega
            have hlen : repl.length = needle.length :=
              Nat.eq_of_mul_eq_mul_left (Nat.succ_pos k) hNR
            exact hnr ((List.append_inj heq hlen).1)
          · have hpf : needle.isPrefixOf (c :: rest) = false := by
              cases hpf : needle.isPrefixOf (c :: rest)
              · rfl
              · exact absurd (by rw [hie, hpf]; rfl) hcond
            have hocc' : occursIn needle rest = true := by
              simp only [occursIn, hpf, Bool.false_or] at hocc
              exact hocc
            simp only [replaceAllFuel, if_neg hcond]
            intro heq
            have htl : replaceAllFuel needle repl n rest = rest :=
              (List.cons.inj heq).2
            have hl' : rest.length ≤ n := by
              simp only [List.length_cons] at hl; omega
            exact ih rest hl' hocc' htl

theorem replaceAll_ne_of_occ (needle repl l : List Char)
    (hne : needle ≠ []) (hnr : repl ≠ needle)
    (hocc : occursIn needle l = true) : replaceAll needle repl l ≠ l :=
  replaceAllFuel_ne_of_occ needle repl hne hnr l.length l (Nat.le_refl _) hocc

/-! ### Claim C1 — the path mapper -/

/-- Claim C1, counterexample.  The path `/a/a` is lexically prefixed by the
source root `/a`, yet `__in_destination` with destination root `/b` returns
`/b/b`, not `destRoot + relative(p, sourceRoot) = /b/a`: `str.replace`
substitutes *every* occurrence of the source-root string, not only the
leading prefix. -/
theorem C1_mapper_cex :
    ("/a".toList.isPrefixOf "/a/a".toList = true) ∧
      in_destination "/a".toList "/b".toList "/a/a".toList ≠
        "/b".toList ++ ("/a/a".toList.drop ("/a".toList.length)) := by
  decide

/-- Claim C1 (amended): for an absolute path `p` lexically prefixed by the
non-empty source root, `__in_destination` replaces the leading source-root
prefix with the destination root and then continues the same global
replacement over the remainder; the result is therefore always under (i.e.
lexically prefixed by) the destination root; if the source-root string does
not also occur inside the remainder, the result equals
`destRoot + relative(p, sourceRoot)`; and whenever the destination root
differs from the source root — guaranteed by the specification's invariant
that the two roots never overlap — that equality holds *exactly* when the
source-root string does not occur inside the remainder. -/
theorem C1_mapper (s d p : List Char) (hne : s ≠ [])
    (hpre : s.isPrefixOf p = true) :
    in_destination s d p = d ++ replaceAll s d (p.drop s.length)
    ∧ d.isPrefixOf (in_destination s d p) = true
    ∧ (occursIn s (p.drop s.length) = false →
        in_destination s d p = d ++ p.drop s.length)
    ∧ (d ≠ s →
        (in_destination s d p = d ++ p.drop s.length ↔
          occursIn s (p.drop s.length) = false)) := by
  have hstep : in_destination s d p = d ++ replaceAll s d (p.drop s.length) :=
    replaceAll_step_of_leading s d p hne hpre
  refine ⟨hstep, ?_, ?_, ?_⟩
  · rw [hstep]
    exact List.isPrefixOf_iff_prefix.mpr (List.prefix_append d _)
  · intro hocc
    rw [hstep, replaceAll_id_of_no_occ s d _ hocc]
  · intro hds
    constructor
    · intro heq
      cases hocc : occursIn s (p.drop s.length)
      · rfl
      · exfalso
        rw [hstep] at heq
        have heq2 : replaceAll s d (p.drop s.length) = p.drop s.length :=
          List.append_cancel_left heq
        exact replaceAll_ne_of_occ s d (p.drop s.length) hne hds hocc heq2
    · intro hocc
      rw [hstep, replaceAll_id_of_no_occ s d _ hocc]

/-- Claim C1, witness: a concrete path under the source root, with distinct
roots, where the amended biconditional applies. -/
theorem C1_mapper_witness :
    in_destination "/a".toList "/b".toList "/a/c.txt".toList =
        "/b".toList ++ ("/a/c.txt".toList.drop ("/a".toList.length)) ↔
      occursIn "/a".toList ("/a/c.txt".toList.drop ("/a".toList.length))
        = false :=
  (C1_mapper "/a".toList "/b".toList "/a/c.txt".toList (by decide)
    (by decide)).2.2.2 (by decide)

/-! ### Lemmas about the upward pruner -/

theorem rmtree_pathExists_self (fs : FS) (p : FsPath) :
    (fs.rmtree p).pathExists p = false := by
  rw [FS.pathExists, List.any_eq_false]
  intro e he
  have h2 := (List.mem_filter.mp he).2
  simp only [decide_eq_true_eq]
  intro hep
  rw [hep] at h2
  have : p.isPrefixOf p = true :=
    List.isPrefixOf_iff_prefix.mpr (List.prefix_refl p)
  rw [this] at h2
  simp at h2

theorem pathExists_mono_sublist {fs1 fs2 : FS} (h : fs1.Sublist fs2)
    (x : FsPath) : fs1.pathExists x = true → fs2.pathExists x = true := by
  simp only [FS.pathExists, List.any_eq_true]
  rintro ⟨e, he, hx⟩
  exact ⟨e, h.subset he, hx⟩

theorem pruneMeasure_lt_two (fs : FS) (p : FsPath) :
    pruneMeasure fs p < p.length + 2 := by
  unfold pruneMeasure; split <;> omega

theorem pruneMeasure_rmtree_le (fs : FS) (p : FsPath) :
    pruneMeasure (fs.rmtree p) p.dropLast ≤ p.length := by
  cases p with
  | nil =>
      simp [pruneMeasure, rmtree_pathExists_self]
  | cons a l =>
      unfold pruneMeasure
      have h1 : ((a :: l).dropLast).length = (a :: l).length - 1 :=
        List.length_dropLast _
      have h2 : (if (FS.rmtree fs (a :: l)).pathExists ((a :: l).dropLast)
          then 1 else 0) ≤ 1 := by split <;> omega
      simp only [List.length_cons] at h1 ⊢
      omega

theorem cleanUpFuel_isSome (dest : FsPath) :
    ∀ n fs p, pruneMeasure fs p < n →
      (cleanUpFuel dest n fs p).isSome = true := by
  intro n
  induction n with
  | zero => intro fs p h; exact absurd h (Nat.not_lt_zero _)
  | succ n ih =>
      intro fs p h
      by_cases h1 : p = dest
      · simp [cleanUpFuel, h1]
      · by_cases h2 : fs.pathExists p = true
        · by_cases h3 : fs.isFileAt p = true
          · simp [cleanUpFuel, h1, h2, h3]
          · by_cases h4 : fs.hasChild p = true
            · simp [cleanUpFuel, h1, h2, h3, h4]
            · have e1 : cleanUpFuel dest (n + 1) fs p
                  = cleanUpFuel dest n (fs.rmtree p) p.dropLast := by
                simp [cleanUpFuel, h1, h2, h3, h4]
              rw [e1]
              apply ih
              have hb := pruneMeasure_rmtree_le fs p
              have hm : pruneMeasure fs p = p.length + 1 := by
                simp [pruneMeasure, h2]
              omega
        · simp [cleanUpFuel, h1, h2]

theorem cleanUpFuel_irrel (dest : FsPath) :
    ∀ m n fs p, pruneMeasure fs p < m → pruneMeasure fs p < n →
      cleanUpFuel dest m fs p = cleanUpFuel dest n fs p := by
  intro m
  induction m with
  | zero => intro n fs p hm _; exact absurd hm (Nat.not_lt_zero _)
  | succ m ih =>
      intro n fs p hm hn
      cases n with
      | zero => exact absurd hn (Nat.not_lt_zero _)
      | succ n =>
          by_cases h1 : p = dest
          · simp [cleanUpFuel, h1]
          · by_cases h2 : fs.pathExists p = true
            · by_cases h3 : fs.isFileAt p = true
              · simp [cleanUpFuel, h1, h2, h3]
              · by_cases h4 : fs.hasChild p = true
                · simp [cleanUpFuel, h1, h2, h3, h4]
                · have e1 : cleanUpFuel dest (m + 1) fs p
                      = cleanUpFuel dest m (fs.rmtree p) p.dropLast := by
                    simp [cleanUpFuel, h1, h2, h3, h4]
                  have e2 : cleanUpFuel dest (n + 1) fs p
                      = cleanUpFuel dest n (fs.rmtree p) p.dropLast := by
                    simp [cleanUpFuel, h1, h2, h3, h4]
                  rw [e1, e2]
                  have hb := pruneMeasure_rmtree_le fs p
                  have hm' : pruneMeasure fs p = p.length + 1 := by
                    simp [pruneMeasure, h2]
                  exact ih n _ _ (by omega) (by omega)
            · simp [cleanUpFuel, h1, h2]

/-- The fuel `p.length + 2` of the wrapper is always sufficient. -/
theorem clean_some (fs : FS) (p r : FsPath) :
    cleanUpFuel r (p.length + 2) fs p
      = some (recursively_clean_dirs_upwards fs p r) := by
  have hs := cleanUpFuel_isSome r (p.length + 2) fs p (pruneMeasure_lt_two fs p)
  obtain ⟨v, hv⟩ := Option.isSome_iff_exists.mp hs
  rw [hv]
  unfold recursively_clean_dirs_upwards
  rw [hv]
  simp

theorem clean_eq_root (fs : FS) (r : FsPath) :
    recursively_clean_dirs_upwards fs r r = (fs, false) := by
  unfold recursively_clean_dirs_upwards
  simp [cleanUpFuel]

theorem clean_not_exists (fs : FS) (p r : FsPath)
    (h : fs.pathExists p = false) :
    recursively_clean_dirs_upwards fs p r = (fs, false) := by
  unfold recursively_clean_dirs_upwards
  by_cases h1 : p = r
  · simp [cleanUpFuel, h1]
  · simp [cleanUpFuel, h1, h]

theorem clean_file (fs : FS) (p r : FsPath) (h1 : p ≠ r)
    (h2 : fs.pathExists p = true) (h3 : fs.isFileAt p = true) :
    recursively_clean_dirs_upwards fs p r = (fs, true) := by
  unfold recursively_clean_dirs_upwards
  simp [cleanUpFuel, h1, h2, h3]

theorem clean_stop_child (fs : FS) (p r : FsPath) (h1 : p ≠ r)
    (h2 : fs.pathExists p = true) (h3 : fs.isFileAt p = false)
    (h4 : fs.hasChild p = true) :
    recursively_clean_dirs_upwards fs p r = (fs, false) := by
  unfold recursively_clean_dirs_upwards
  simp [cleanUpFuel, h1, h2, h3, h4]

theorem clean_step (fs : FS) (p r : FsPath) (h1 : p ≠ r)
    (h2 : fs.pathExists p = true) (h3 : fs.isFileAt p = false)
    (h4 : fs.hasChild p = false) :
    recursively_clean_dirs_upwards fs p r
      = recursively_clean_dirs_upwards (fs.rmtree p) p.dropLast r := by
  have e1 : cleanUpFuel r (p.length + 2) fs p
      = cleanUpFuel r (p.length + 1) (fs.rmtree p) p.dropLast := by
    simp [cleanUpFuel, h1, h2, h3, h4]
  have hb := pruneMeasure_rmtree_le fs p
  have e2 : cleanUpFuel r (p.length + 1) (fs.rmtree p) p.dropLast
      = cleanUpFuel r (p.dropLast.length + 2) (fs.rmtree p) p.dropLast :=
    cleanUpFuel_irrel r _ _ _ _ (by omega) (pruneMeasure_lt_two _ _)
  unfold recursively_clean_dirs_upwards
  rw [e1, e2]
  obtain ⟨v, hv⟩ := Option.isSome_iff_exists.mp
    (cleanUpFuel_isSome r (p.dropLast.length + 2) (fs.rmtree p) p.dropLast
      (pruneMeasure_lt_two _ _))
  rw [hv]
  simp

theorem clean_hasChild_state (fs : FS) (p r : FsPath)
    (h : fs.hasChild p = true) :
    (recursively_clean_dirs_upwards fs p r).1 = fs := by
  by_cases h1 : p = r
  · subst h1; rw [clean_eq_root]
  · by_cases h2 : fs.pathExists p = true
    · by_cases h3 : fs.isFileAt p = true
      · rw [clean_file fs p r h1 h2 h3]
      · have h3' : fs.isFileAt p = false := by simpa using h3
        rw [clean_stop_child fs p r h1 h2 h3' h]
    · have h2' : fs.pathExists p = false := by simpa using h2
      rw [clean_not_exists fs p r h2']

theorem cleanUpFuel_sublist (dest : FsPath) :
    ∀ n fs p out, cleanUpFuel dest n fs p = some out → out.1.Sublist fs := by
  intro n
  induction n with
  | zero => intro fs p out h; simp [cleanUpFuel] at h
  | succ n ih =>
      intro fs p out h
      by_cases h1 : p = dest
      · simp [cleanUpFuel, h1] at h
        rw [← h]
      · by_cases h2 : fs.pathExists p = true
        · by_cases h3 : fs.isFileAt p = true
          · simp [cleanUpFuel, h1, h2, h3] at h
            rw [← h]
          · by_cases h4 : fs.hasChild p = true
            · simp [cleanUpFuel, h1, h2, h3, h4] at h
              rw [← h]
            · have e1 : cleanUpFuel dest (n + 1) fs p
                  = cleanUpFuel dest n (fs.rmtree p) p.dropLast := by
                simp [cleanUpFuel, h1, h2, h3, h4]
              rw [e1] at h
              exact (ih _ _ _ h).trans (List.filter_sublist fs)
        · simp [cleanUpFuel, h1, h2] at h
          rw [← h]

theorem clean_sublist (fs : FS) (p r : FsPath) :
    ((recursively_clean_dirs_upwards fs p r).1).Sublist fs :=
  cleanUpFuel_sublist r (p.length + 2) fs p _ (clean_some fs p r)

theorem clean_idem (fs : FS) (p r : FsPath) :
    (recursively_clean_dirs_upwards
        (recursively_clean_dirs_upwards fs p r).1 p r).1
      = (recursively_clean_dirs_upwards fs p r).1 := by
  by_cases h1 : p = r
  · subst h1
    rw [clean_eq_root]
  · by_cases h2 : fs.pathExists p = true
    · by_cases h3 : fs.isFileAt p = true
      · rw [clean_file fs p r h1 h2 h3]
        show (recursively_clean_dirs_upwards fs p r).1 = fs
        rw [clean_file fs p r h1 h2 h3]
      · have h3' : fs.isFileAt p = false := by simpa using h3
        by_cases h4 : fs.hasChild p = true
        · rw [clean_stop_child fs p r h1 h2 h3' h4]
          show (recursively_clean_dirs_upwards fs p r).1 = fs
          rw [clean_stop_child fs p r h1 h2 h3' h4]
        · have h4' : fs.hasChild p = false := by simpa using h4
          rw [clean_step fs p r h1 h2 h3' h4']
          have hsub := clean_sublist (fs.rmtree p) p.dropLast r
          have hne : ((recursively_clean_dirs_upwards (fs.rmtree p)
              p.dropLast r).1).pathExists p = false := by
            cases hpe : ((recursively_clean_dirs_upwards (fs.rmtree p)
                p.dropLast r).1).pathExists p
            · rfl
            · have hx := pathExists_mono_sublist hsub p hpe
              rw [rmtree_pathExists_self] at hx
              exact absurd hx (by simp)
          rw [clean_not_exists _ _ _ hne]
    · have h2' : fs.pathExists p = false := by simpa using h2
      rw [clean_not_exists fs p r h2']
      show (recursively_clean_dirs_upwards fs p r).1 = fs
      rw [clean_not_exists fs p r h2']

/-! ### Claims C4 and C5 — the upward directory pruner -/

/-- Claim C4: the pruner stops without deleting when the starting directory
is the destination root; stops silently when the directory does not exist;
stops without deleting and without continuing upward when its listing
yields any entry; otherwise deletes the directory and recurses on its
parent; and repeated invocation with the same argument is idempotent (the
first component of the result is the destination tree, the second the
escaped-error flag). -/
theorem C4_pruner (fs : FS) (p r : FsPath) :
    recursively_clean_dirs_upwards fs r r = (fs, false)
    ∧ (fs.pathExists p = false →
        recursively_clean_dirs_upwards fs p r = (fs, false))
    ∧ (fs.hasChild p = true →
        (recursively_clean_dirs_upwards fs p r).1 = fs)
    ∧ (p ≠ r → fs.pathExists p = true → fs.isFileAt p = false →
        fs.hasChild p = false →
        recursively_clean_dirs_upwards fs p r
          = recursively_clean_dirs_upwards (fs.rmtree p) p.dropLast r)
    ∧ (recursively_clean_dirs_upwards
          (recursively_clean_dirs_upwards fs p r).1 p r).1
        = (recursively_clean_dirs_upwards fs p r).1 :=
  ⟨clean_eq_root fs r, clean_not_exists fs p r,
   clean_hasChild_state fs p r, clean_step fs p r, clean_idem fs p r⟩

/-- Claim C4, witness: a concrete tree where the destination root survives
and an empty directory one level down is deleted with a recursion step to
its parent. -/
theorem C4_pruner_witness :
    recursively_clean_dirs_upwards
        [(["d"], Node.dir), (["d", "a"], Node.dir)] ["d"] ["d"]
      = ([(["d"], Node.dir), (["d", "a"], Node.dir)], false)
    ∧ recursively_clean_dirs_upwards
        [(["d"], Node.dir), (["d", "a"], Node.dir)] ["d", "a"] ["d"]
      = recursively_clean_dirs_upwards
          (FS.rmtree [(["d"], Node.dir), (["d", "a"], Node.dir)] ["d", "a"])
          (["d", "a"].dropLast) ["d"] :=
  ⟨(C4_pruner [(["d"], Node.dir), (["d", "a"], Node.dir)] ["d", "a"] ["d"]).1,
   (C4_pruner [(["d"], Node.dir), (["d", "a"], Node.dir)] ["d", "a"]
      ["d"]).2.2.2.1 (by decide) (by decide) (by decide) (by decide)⟩

/-- Claim C5: every invocation of the pruner terminates, for every
destination tree, every starting directory (those outside the destination
root included, and the filesystem root `[]`, whose parent is itself,
included) and every root: the recursion consumes at most `depth + 2` steps
of fuel, so `cleanUpFuel` with that fuel never runs out and returns exactly
the pruner's result. -/
theorem C5_pruner_terminates (fs : FS) (p r : FsPath) :
    cleanUpFuel r (p.length + 2) fs p
      = some (recursively_clean_dirs_upwards fs p r) :=
  clean_some fs p r

/-! ### Handler branch lemmas -/

theorem on_created_ignored (cfg : HandlerCfg) (srcFs dstFs : FS) (e : Event)
    (hig : ignores cfg e.src_raw = true) :
    on_created cfg srcFs dstFs e = (dstFs, []) := by
  cases hd : e.is_directory <;> simp [on_created, hd, hig]

theorem on_modified_ignored (cfg : HandlerCfg) (srcFs dstFs : FS) (e : Event)
    (hig : ignores cfg e.src_raw = true) :
    on_modified cfg srcFs dstFs e = (dstFs, []) := by
  cases hd : e.is_directory <;> simp [on_modified, hd, hig]

theorem on_deleted_ignored (cfg : HandlerCfg) (srcFs dstFs : FS) (e : Event)
    (hig : ignores cfg e.src_raw = true) :
    on_deleted cfg srcFs dstFs e = (dstFs, []) := by
  cases hd : e.is_directory <;> simp [on_deleted, hd, hig]

theorem on_moved_ignored (cfg : HandlerCfg) (srcFs dstFs : FS) (e : Event)
    (hig : ignores cfg e.src_raw = true ∨ ignores cfg e.dest_raw = true) :
    on_moved cfg srcFs dstFs e = (dstFs, []) := by
  cases hd : e.is_directory
  · rcases hig with h | h
    · simp [on_moved, hd, h]
    · cases hs : ignores cfg e.src_raw <;> simp [on_moved, hd, hs, h]
  · simp [on_moved, hd]

theorem on_created_trace_ne (cfg : HandlerCfg) (srcFs dstFs : FS) (e : Event)
    (hd : e.is_directory = false) (hig : ignores cfg e.src_raw = false) :
    (on_created cfg srcFs dstFs e).2 ≠ [] := by
  cases hc : copy2 srcFs (dstFs.mkdirs (cfg.in_dest e.src_path).dropLast)
      e.src_path (cfg.in_dest e.src_path) <;>
    simp [on_created, hd, hig, hc]

theorem on_modified_trace_ne (cfg : HandlerCfg) (srcFs dstFs : FS) (e : Event)
    (hd : e.is_directory = false) (hig : ignores cfg e.src_raw = false) :
    (on_modified cfg srcFs dstFs e).2 ≠ [] := by
  by_cases h1 : dstFs.pathExists (cfg.in_dest e.src_path) = true
  · by_cases h2 : dstFs.isFileAt (cfg.in_dest e.src_path) = true
    · cases hc : copy2 srcFs
          ((dstFs.unlink (cfg.in_dest e.src_path)).mkdirs
            (cfg.in_dest e.src_path).dropLast)
          e.src_path (cfg.in_dest e.src_path) <;>
        simp [on_modified, hd, hig, h1, h2, hc]
    · simp [on_modified, hd, hig, h1, h2]
  · cases hc : copy2 srcFs (dstFs.mkdirs (cfg.in_dest e.src_path).dropLast)
        e.src_path (cfg.in_dest e.src_path) <;>
      simp [on_modified, hd, hig, h1, hc]

theorem on_deleted_trace_ne (cfg : HandlerCfg) (srcFs dstFs : FS) (e : Event)
    (hd : e.is_directory = false) (hig : ignores cfg e.src_raw = false) :
    (on_deleted cfg srcFs dstFs e).2 ≠ [] := by
  by_cases h1 : dstFs.pathExists (cfg.in_dest e.src_path) = true
  · by_cases h2 : dstFs.isFileAt (cfg.in_dest e.src_path) = true
    · simp [on_deleted, hd, hig, h1, h2]
    · simp [on_deleted, hd, hig, h1, h2]
  · simp [on_deleted, hd, hig, h1]

theorem moved_finish_trace_ne (cfg : HandlerCfg) (f2 : FS)
    (destP oldD newD : FsPath) (ok : Bool) :
    (moved_finish cfg f2 destP oldD newD ok).2 ≠ [] := by
  by_cases h1 : f2.pathExists oldD = true
  · by_cases h2 : f2.isFileAt oldD = true
    · simp [moved_finish, h1, h2]
    · simp [moved_finish, h1, h2]
  · simp [moved_finish, h1]

theorem on_moved_trace_ne (cfg : HandlerCfg) (srcFs dstFs : FS) (e : Event)
    (hd : e.is_directory = false) (hig1 : ignores cfg e.src_raw = false)
    (hig2 : ignores cfg e.dest_raw = false) :
    (on_moved cfg srcFs dstFs e).2 ≠ [] := by
  cases hc : copy2 srcFs (dstFs.mkdirs (cfg.in_dest e.dest_path).dropLast)
      e.dest_path (cfg.in_dest e.dest_path) with
  | ok f2 =>
      simp only [on_moved, hd, hig1, hig2, Bool.false_eq_true, if_false, hc]
      exact moved_finish_trace_ne cfg f2 e.dest_path (cfg.in_dest e.src_path)
        (cfg.in_dest e.dest_path) true
  | error err =>
      cases err with
      | notFound =>
          simp only [on_moved, hd, hig1, hig2, Bool.false_eq_true, if_false, hc]
          exact moved_finish_trace_ne cfg _ e.dest_path
            (cfg.in_dest e.src_path) (cfg.in_dest e.dest_path) false
      | notAFile => simp [on_moved, hd, hig1, hig2, hc]

/-! ### Claim C7 — directory events are inert -/

/-- Claim C7: an event with `is_directory = true` makes every handler
return the destination tree unchanged with an empty action trace — no
copy, no delete, no prune, regardless of kind. -/
theorem C7_directory_inert (cfg : HandlerCfg) (srcFs dstFs : FS) (e : Event)
    (hd : e.is_directory = true) :
    on_created cfg srcFs dstFs e = (dstFs, [])
    ∧ on_modified cfg srcFs dstFs e = (dstFs, [])
    ∧ on_deleted cfg srcFs dstFs e = (dstFs, [])
    ∧ on_moved cfg srcFs dstFs e = (dstFs, []) := by
  refine ⟨?_, ?_, ?_, ?_⟩ <;>
    simp [on_created, on_modified, on_deleted, on_moved, hd]

/-- Claim C7, witness at a concrete directory event and tree. -/
theorem C7_directory_inert_witness :
    on_created sampleCfg srcTree dstTree evDir = (dstTree, [])
    ∧ on_moved sampleCfg srcTree dstTree evDir = (dstTree, []) :=
  ⟨(C7_directory_inert sampleCfg srcTree dstTree evDir rfl).1,
   (C7_directory_inert sampleCfg srcTree dstTree evDir rfl).2.2.2⟩

/-! ### Claim C6 — the ignore filter -/

/-- Claim C6: for a non-directory event, a handler takes its early-return
path (empty action trace, destination untouched) exactly when the ignore
pattern is non-empty and the regex search matches the raw source path —
for Moved, when it matches either the raw source or the raw destination
path; an empty pattern never drops an event. -/
theorem C6_ignore_filter (cfg : HandlerCfg) (srcFs dstFs : FS) (e : Event)
    (hd : e.is_directory = false) :
    ((on_created cfg srcFs dstFs e).2 = [] ↔ ignores cfg e.src_raw = true)
    ∧ (ignores cfg e.src_raw = true →
        on_created cfg srcFs dstFs e = (dstFs, []))
    ∧ ((on_modified cfg srcFs dstFs e).2 = [] ↔ ignores cfg e.src_raw = true)
    ∧ (ignores cfg e.src_raw = true →
        on_modified cfg srcFs dstFs e = (dstFs, []))
    ∧ ((on_deleted cfg srcFs dstFs e).2 = [] ↔ ignores cfg e.src_raw = true)
    ∧ (ignores cfg e.src_raw = true →
        on_deleted cfg srcFs dstFs e = (dstFs, []))
    ∧ ((on_moved cfg srcFs dstFs e).2 = [] ↔
        (ignores cfg e.src_raw = true ∨ ignores cfg e.dest_raw = true))
    ∧ ((ignores cfg e.src_raw = true ∨ ignores cfg e.dest_raw = true) →
        on_moved cfg srcFs dstFs e = (dstFs, []))
    ∧ (cfg.ignore_pattern = "" →
        ignores cfg e.src_raw = false ∧ ignores cfg e.dest_raw = false) := by
  refine ⟨?_, fun h => on_created_ignored cfg srcFs dstFs e h,
          ?_, fun h => on_modified_ignored cfg srcFs dstFs e h,
          ?_, fun h => on_deleted_ignored cfg srcFs dstFs e h,
          ?_, fun h => on_moved_ignored cfg srcFs dstFs e h,
          fun h => by simp [ignores, h]⟩
  · cases hig : ignores cfg e.src_raw
    · simp only [Bool.false_eq_true, iff_false]
      exact on_created_trace_ne cfg srcFs dstFs e hd hig
    · simp [on_created_ignored cfg srcFs dstFs e hig]
  · cases hig : ignores cfg e.src_raw
    · simp only [Bool.false_eq_true, iff_false]
      exact on_modified_trace_ne cfg srcFs dstFs e hd hig
    · simp [on_modified_ignored cfg srcFs dstFs e hig]
  · cases hig : ignores cfg e.src_raw
    · simp only [Bool.false_eq_true, iff_false]
      exact on_deleted_trace_ne cfg srcFs dstFs e hd hig
    · simp [on_deleted_ignored cfg srcFs dstFs e hig]
  · cases hig1 : ignores cfg e.src_raw
    · cases hig2 : ignores cfg e.dest_raw
      · simp only [Bool.false_eq_true, false_or, iff_false]
        exact on_moved_trace_ne cfg srcFs dstFs e hd hig1 hig2
      · simp [on_moved_ignored cfg srcFs dstFs e (Or.inr hig2)]
    · simp [on_moved_ignored cfg srcFs dstFs e (Or.inl hig1)]

/-- Claim C6, witness: under the `.tmp` ignore pattern, a Moved event whose
raw source path contains `.tmp` is dropped. -/
theorem C6_ignore_filter_witness :
    (on_moved sampleCfgTmp srcTree dstTree
        ⟨false, "/src/a/b.tmp", ["src", "a", "b.tmp"],
         "/src/c/d.txt", ["src", "c", "d.txt"]⟩).2 = [] ↔
      (ignores sampleCfgTmp "/src/a/b.tmp" = true ∨
        ignores sampleCfgTmp "/src/c/d.txt" = true) :=
  (C6_ignore_filter sampleCfgTmp srcTree dstTree
    ⟨false, "/src/a/b.tmp", ["src", "a", "b.tmp"],
     "/src/c/d.txt", ["src", "c", "d.txt"]⟩ rfl).2.2.2.2.2.2.1

/-! ### Lemmas about lookup, unlink and mkdirs -/

theorem isFileAt_pathExists (fs : FS) (p : FsPath)
    (h : fs.isFileAt p = true) : fs.pathExists p = true := by
  unfold FS.isFileAt at h
  cases hl : fs.lookup p with
  | none => rw [hl] at h; simp at h
  | some n =>
      unfold FS.lookup at hl
      cases hf : fs.find? (fun e => decide (e.1 = p)) with
      | none => rw [hf] at hl; simp at hl
      | some ent =>
          have hmem := List.mem_of_find?_eq_some hf
          have hp := List.find?_some hf
          unfold FS.pathExists
          rw [List.any_eq_true]
          exact ⟨ent, hmem, hp⟩

theorem unlink_pathExists_self (fs : FS) (p : FsPath) :
    (fs.unlink p).pathExists p = false := by
  rw [FS.pathExists, List.any_eq_false]
  intro e he
  have h2 := (List.mem_filter.mp he).2
  simp only [decide_eq_true_eq]
  intro hep
  rw [hep] at h2
  simp at h2

theorem mkdirs_pathExists (fs : FS) (q x : FsPath)
    (h : (fs.mkdirs q).pathExists x = true) :
    fs.pathExists x = true ∨ (x ≠ [] ∧ x <+: q) := by
  unfold FS.mkdirs FS.pathExists at h
  rw [List.any_eq_true] at h
  obtain ⟨e, he, hx⟩ := h
  rw [decide_eq_true_eq] at hx
  rw [List.mem_append] at he
  rcases he with he | he
  · left
    unfold FS.pathExists
    rw [List.any_eq_true]
    exact ⟨e, he, by rw [decide_eq_true_eq]; exact hx⟩
  · right
    rw [List.mem_map] at he
    obtain ⟨y, hy, hey⟩ := he
    rw [List.mem_filter] at hy
    have hyq : y <+: q := (List.mem_inits y q).mp hy.1
    rcases Bool.and_eq_true_iff.mp hy.2 with ⟨hne, _⟩
    have hey1 : e.1 = y := by rw [← hey]
    have hxy : x = y := by rw [← hx, hey1]
    have hyne : y ≠ [] := by
      intro hnil
      rw [hnil] at hne
      simp at hne
    exact ⟨hxy ▸ hyne, hxy ▸ hyq⟩

/-! ### Claim C10 — Modified with a vanished source loses the mirror copy -/

/-- Claim C10: for a non-ignored, non-directory Modified event whose mapped
destination file exists, the handler unlinks that file before attempting
the copy; if the source has vanished by copy time the copy fails, a warning
is logged, and the destination file stays deleted — the previously mirrored
content is not restored. -/
theorem C10_modified_vanished_loss (cfg : HandlerCfg) (srcFs dstFs : FS)
    (e : Event) (hd : e.is_directory = false)
    (hig : ignores cfg e.src_raw = false)
    (hfile : dstFs.isFileAt (cfg.in_dest e.src_path) = true)
    (hvan : srcFs.lookup e.src_path = none) :
    (on_modified cfg srcFs dstFs e).2 =
      [Act.unlink (cfg.in_dest e.src_path),
       Act.makedirs (cfg.in_dest e.src_path).dropLast,
       Act.copy e.src_path (cfg.in_dest e.src_path) false,
       Act.warn "on_modified"]
    ∧ ((on_modified cfg srcFs dstFs e).1).pathExists
        (cfg.in_dest e.src_path) = false := by
  have hpe : dstFs.pathExists (cfg.in_dest e.src_path) = true :=
    isFileAt_pathExists _ _ hfile
  have hc : copy2 srcFs
      ((dstFs.unlink (cfg.in_dest e.src_path)).mkdirs
        (cfg.in_dest e.src_path).dropLast)
      e.src_path (cfg.in_dest e.src_path) = .error .notFound := by
    simp [copy2, hvan]
  have hst : (on_modified cfg srcFs dstFs e).1
      = (dstFs.unlink (cfg.in_dest e.src_path)).mkdirs
          (cfg.in_dest e.src_path).dropLast := by
    simp [on_modified, hd, hig, hpe, hfile, hc]
  refine ⟨by simp [on_modified, hd, hig, hpe, hfile, hc], ?_⟩
  rw [hst]
  cases hx : ((dstFs.unlink (cfg.in_dest e.src_path)).mkdirs
      (cfg.in_dest e.src_path).dropLast).pathExists (cfg.in_dest e.src_path)
  · rfl
  · exfalso
    rcases mkdirs_pathExists _ _ _ hx with h | ⟨hne, hpref⟩
    · rw [unlink_pathExists_self] at h
      simp at h
    · have hle := hpref.length_le
      cases hp : cfg.in_dest e.src_path with
      | nil => exact hne hp
      | cons a l =>
          rw [hp] at hle
          rw [List.length_dropLast] at hle
          simp at hle

/-- Claim C10, witness: the mirrored file `dst/a/b.txt` exists, the source
has vanished entirely, and after the Modified event the destination file is
gone. -/
theorem C10_modified_vanished_loss_witness :
    ((on_modified sampleCfg [] dstTree evModFile).1).pathExists
      (sampleCfg.in_dest evModFile.src_path) = false :=
  (C10_modified_vanished_loss sampleCfg [] dstTree evModFile rfl rfl
    (by decide) rfl).2

/-! ### Claim C3 — vanished-source handling -/

/-- Claim C3, counterexample.  A Created event whose source file has
vanished by copy time is *not* dropped silently: the `FileNotFoundError`
from `shutil.copy2` reaches the generic `except Exception` of `on_created`,
which logs a warning (`logger.warn`), unlike the Moved handler's inner
`except FileNotFoundError: pass`. -/
theorem C3_transient_race_cex :
    Act.warn "on_created" ∈ (on_created sampleCfg [] [] evFile).2 := by
  decide

/-- Claim C3 (amended): for a non-ignored, non-directory Created or
Modified event whose source file has vanished by copy time, no exception
propagates (the whole handler completes), but the event is *not* dropped
silently — the generic per-event catch logs a warning naming the handler.
Only the Moved handler's copy step tolerates a vanished source with no
error of any kind: under the stated normal-operation side conditions its
trace contains no warning at all. -/
theorem C3_transient_race (cfg : HandlerCfg) (srcFs dstFs : FS) (e : Event)
    (hd : e.is_directory = false)
    (hi1 : ignores cfg e.src_raw = false)
    (hi2 : ignores cfg e.dest_raw = false)
    (hv1 : srcFs.lookup e.src_path = none)
    (hv2 : srcFs.lookup e.dest_path = none)
    (hold : (movedMid cfg srcFs dstFs e).pathExists (cfg.in_dest e.src_path)
        = true →
      (movedMid cfg srcFs dstFs e).isFileAt (cfg.in_dest e.src_path) = true)
    (hpr : (recursively_clean_dirs_upwards (movedAfterRemove cfg srcFs dstFs e)
        (cfg.in_dest e.src_path).dropLast cfg.dest).2 = false) :
    Act.warn "on_created" ∈ (on_created cfg srcFs dstFs e).2
    ∧ Act.warn "on_modified" ∈ (on_modified cfg srcFs dstFs e).2
    ∧ ∀ s, Act.warn s ∉ (on_moved cfg srcFs dstFs e).2 := by
  have hc1 : copy2 srcFs (dstFs.mkdirs (cfg.in_dest e.src_path).dropLast)
      e.src_path (cfg.in_dest e.src_path) = .error .notFound := by
    simp [copy2, hv1]
  have hcm : copy2 srcFs (dstFs.mkdirs (cfg.in_dest e.dest_path).dropLast)
      e.dest_path (cfg.in_dest e.dest_path) = .error .notFound := by
    simp [copy2, hv2]
  refine ⟨?_, ?_, ?_⟩
  · simp [on_created, hd, hi1, hc1]
  · by_cases h1 : dstFs.pathExists (cfg.in_dest e.src_path) = true
    · by_cases h2 : dstFs.isFileAt (cfg.in_dest e.src_path) = true
      · have hc2 : copy2 srcFs
            ((dstFs.unlink (cfg.in_dest e.src_path)).mkdirs
              (cfg.in_dest e.src_path).dropLast)
            e.src_path (cfg.in_dest e.src_path) = .error .notFound := by
          simp [copy2, hv1]
        simp [on_modified, hd, hi1, h1, h2, hc2]
      · simp [on_modified, hd, hi1, h1, h2]
    · simp [on_modified, hd, hi1, h1, hc1]
  · intro s
    have hmid : movedMid cfg srcFs dstFs e
        = dstFs.mkdirs (cfg.in_dest e.dest_path).dropLast := by
      simp [movedMid, hcm]
    have hom : on_moved cfg srcFs dstFs e
        = moved_finish cfg (dstFs.mkdirs (cfg.in_dest e.dest_path).dropLast)
            e.dest_path (cfg.in_dest e.src_path) (cfg.in_dest e.dest_path)
            false := by
      simp [on_moved, hd, hi1, hi2, hcm]
    rw [hom]
    by_cases hex : (dstFs.mkdirs (cfg.in_dest e.dest_path).dropLast).pathExists
        (cfg.in_dest e.src_path) = true
    · have hfile := hold (by rw [hmid]; exact hex)
      rw [hmid] at hfile
      have har : movedAfterRemove cfg srcFs dstFs e
          = (dstFs.mkdirs (cfg.in_dest e.dest_path).dropLast).unlink
              (cfg.in_dest e.src_path) := by
        rw [movedAfterRemove, hmid, if_pos hex]
      rw [har] at hpr
      simp [moved_finish, hex, hfile, hpr]
    · have har : movedAfterRemove cfg srcFs dstFs e
          = dstFs.mkdirs (cfg.in_dest e.dest_path).dropLast := by
        rw [movedAfterRemove, hmid, if_neg hex]
      rw [har] at hpr
      simp [moved_finish, hex, hpr]

/-- Claim C3, witness: a Moved event with the whole source tree vanished
produces no warning — its copy failure is swallowed silently. -/
theorem C3_transient_race_witness :
    Act.warn "on_moved" ∉ (on_moved sampleCfg [] dstTree evMove).2 :=
  (C3_transient_race sampleCfg [] dstTree evMove rfl rfl rfl rfl rfl
    (by decide) (by decide)).2.2 "on_moved"

/-! ### Claim C2 — the Moved handler refines the specification's step list -/

theorem copy2_notAFile (srcFs dstFs : FS) (s d : FsPath)
    (h : copy2 srcFs dstFs s d = .error .notAFile) :
    srcFs.lookup s = some Node.dir := by
  unfold copy2 at h
  cases hl : srcFs.lookup s with
  | none => rw [hl] at h; simp at h
  | some n =>
      cases n with
      | dir => rfl
      | file c m => rw [hl] at h; simp at h

/-- Claim C2: a non-ignored, non-directory Moved event performs exactly the
specification's steps in the specification's order — map the new path to
`dstNew` and the old path to `dstOld`, create the missing ancestors of
`dstNew`, copy content and metadata from the new source location into
`dstNew` tolerating a vanished source, remove `dstOld` if it exists, then
invoke the upward pruner at `dstOld`'s parent.  The side conditions state
normal operation: the moved-to source path is not a directory (the event is
a file event), the old mapped destination entry is not a directory, and the
pruner raises nothing. -/
theorem C2_moved_refines_spec (cfg : HandlerCfg) (srcFs dstFs : FS)
    (e : Event) (hd : e.is_directory = false)
    (hi1 : ignores cfg e.src_raw = false)
    (hi2 : ignores cfg e.dest_raw = false)
    (hsrc : srcFs.lookup e.dest_path ≠ some Node.dir)
    (hold : (movedMid cfg srcFs dstFs e).pathExists (cfg.in_dest e.src_path)
        = true →
      (movedMid cfg srcFs dstFs e).isFileAt (cfg.in_dest e.src_path) = true)
    (hpr : (recursively_clean_dirs_upwards (movedAfterRemove cfg srcFs dstFs e)
        (cfg.in_dest e.src_path).dropLast cfg.dest).2 = false) :
    on_moved cfg srcFs dstFs e = movedSpec cfg srcFs dstFs e := by
  cases hc : copy2 srcFs (dstFs.mkdirs (cfg.in_dest e.dest_path).dropLast)
      e.dest_path (cfg.in_dest e.dest_path) with
  | ok f2 =>
      have hmid : movedMid cfg srcFs dstFs e = f2 := by simp [movedMid, hc]
      by_cases hex : f2.pathExists (cfg.in_dest e.src_path) = true
      · have hfile := hold (by rw [hmid]; exact hex)
        rw [hmid] at hfile
        have har : movedAfterRemove cfg srcFs dstFs e
            = f2.unlink (cfg.in_dest e.src_path) := by
          rw [movedAfterRemove, hmid, if_pos hex]
        rw [har] at hpr
        simp [on_moved, movedSpec, moved_finish, hd, hi1, hi2, hc, hex,
          hfile, hpr]
      · have har : movedAfterRemove cfg srcFs dstFs e = f2 := by
          rw [movedAfterRemove, hmid, if_neg hex]
        rw [har] at hpr
        simp [on_moved, movedSpec, moved_finish, hd, hi1, hi2, hc, hex, hpr]
  | error err =>
      cases err with
      | notAFile => exact absurd (copy2_notAFile _ _ _ _ hc) hsrc
      | notFound =>
          have hmid : movedMid cfg srcFs dstFs e
              = dstFs.mkdirs (cfg.in_dest e.dest_path).dropLast := by
            simp [movedMid, hc]
          by_cases hex : (dstFs.mkdirs
              (cfg.in_dest e.dest_path).dropLast).pathExists
              (cfg.in_dest e.src_path) = true
          · have hfile := hold (by rw [hmid]; exact hex)
            rw [hmid] at hfile
            have har : movedAfterRemove cfg srcFs dstFs e
                = (dstFs.mkdirs (cfg.in_dest e.dest_path).dropLast).unlink
                    (cfg.in_dest e.src_path) := by
              rw [movedAfterRemove, hmid, if_pos hex]
            rw [har] at hpr
            simp [on_moved, movedSpec, moved_finish, hd, hi1, hi2, hc, hex,
              hfile, hpr]
          · have har : movedAfterRemove cfg srcFs dstFs e
                = dstFs.mkdirs (cfg.in_dest e.dest_path).dropLast := by
              rw [movedAfterRemove, hmid, if_neg hex]
            rw [har] at hpr
            simp [on_moved, movedSpec, moved_finish, hd, hi1, hi2, hc, hex,
              hpr]

/-- Claim C2, witness: the concrete move of `src/a/b.txt` to `src/c/d.txt`
with `dst/a/b.txt` mirrored. -/
theorem C2_moved_refines_spec_witness :
    on_moved sampleCfg srcTree dstTree evMove
      = movedSpec sampleCfg srcTree dstTree evMove :=
  C2_moved_refines_spec sampleCfg srcTree dstTree evMove rfl rfl rfl
    (by decide) (by decide) (by decide)

/-! ### Claims C8 and C9 — the watcher lifecycle -/

/-- Claim C8, counterexample.  `Watcher.stop` invoked before `start` is not
safe: `observer.stop()` succeeds, but `observer.join()` is
`threading.Thread.join` on a never-started thread, which raises
`RuntimeError`. -/
theorem C8_stop_cex :
    Watcher.stop ⟨⟨false, false, ThreadPhase.unstarted, false⟩⟩
      = Except.error "RuntimeError: cannot join thread before it is started" :=
  rfl

/-- Claim C8 (amended): once `start()` has run, `stop()` is idempotent and
never faults — a first `stop()` completes and leaves the observer joined,
and every further `stop()` completes returning the same state; but
invoking `stop()` before `start()` raises `RuntimeError` (joining a
never-started thread). -/
theorem C8_stop_idempotent_after_start (w w' : Watcher)
    (h : Watcher.start w = Except.ok w') :
    ∃ w'', Watcher.stop w' = Except.ok w''
      ∧ Watcher.stop w'' = Except.ok w'' := by
  obtain ⟨obs⟩ := w
  obtain ⟨sched, daem, ph, stopReq⟩ := obs
  cases ph with
  | unstarted =>
      have hw : w' = ⟨⟨true, true, ThreadPhase.running, stopReq⟩⟩ := by
        simp only [Watcher.start, ObserverState.schedule,
          ObserverState.setDaemon, ObserverState.startThread,
          Except.map] at h
        exact (Except.ok.inj h).symm
      subst hw
      exact ⟨⟨⟨true, true, ThreadPhase.finished, true⟩⟩, rfl, rfl⟩
  | running =>
      simp [Watcher.start, ObserverState.schedule, ObserverState.setDaemon,
        ObserverState.startThread, Except.map] at h
  | finished =>
      simp [Watcher.start, ObserverState.schedule, ObserverState.setDaemon,
        ObserverState.startThread, Except.map] at h

/-- Claim C8, witness: stopping a started watcher twice. -/
theorem C8_stop_idempotent_after_start_witness :
    ∃ w'', Watcher.stop ⟨⟨true, true, ThreadPhase.running, false⟩⟩
        = Except.ok w''
      ∧ Watcher.stop w'' = Except.ok w'' :=
  C8_stop_idempotent_after_start ⟨⟨false, false, ThreadPhase.unstarted, false⟩⟩
    ⟨⟨true, true, ThreadPhase.running, false⟩⟩ rfl

/-- Claim C9 (code-bug evidence): `Watcher.start` on a fresh watcher
*returns* — with the observer thread still running, daemonic, and no stop
ever requested.  The claim (and the surrounding code: `worker` wraps
`watcher.start()` in `try ... except KeyboardInterrupt` and `main` joins
the worker threads) expects `start()` to block until `stop()`, but
`observer.start()` only spawns the background thread; nothing in
`Watcher.start` waits, so the call returns immediately and the worker
thread exits. -/
theorem C9_start_returns_immediately :
    Watcher.start ⟨⟨false, false, ThreadPhase.unstarted, false⟩⟩
      = Except.ok ⟨⟨true, true, ThreadPhase.running, false⟩⟩ :=
  rfl
